import Mathlib

/-!
A shallow embedding in Lean 4 of the core of the `imapsync` repository:
the sync orchestrator (`SyncMailbox`, `filterUIDs`, `prioritizeInbox`),
the Gmail folder filter (`ShouldSkipMailbox`, `simpleWildcardMatch`),
the IMAP client's retry decorator (`withRetry`, `isNetworkError`) and
Gmail label extraction (`extractGmailLabels`), and the storage engine's
compression wrappers (`compressData`, `decompressData`) and `GetEmail`.

Go `uint32` values are modelled as `Nat`; the one place where `uint32`
arithmetic can overflow (`startUID = state.LastUID + 1`) is modelled
with an explicit `% 2^32`.  Go byte slices are `List Nat`, Go strings
are `List Char` where the code slices them byte-wise (the filter) and
`String` elsewhere.  External library behaviour (the gzip codec) is
modelled by an abstract codec record with its documented contract as
hypotheses.
-/

namespace Imapsync

/-! ## Data model (storage package) -/

/-- Mirrors `storage.MailboxState` (`name`, `uid_validity`, `last_uid`,
`last_sync`); time instants are modelled as `Nat` (Unix seconds). -/
structure MailboxState where
  name : String
  uidValidity : Nat
  lastUID : Nat
  lastSync : Nat
  deriving Repr, DecidableEq

/-- Mirrors `sync.Stats`. -/
structure Stats where
  totalMessages : Nat
  newMessages : Nat
  deriving Repr, DecidableEq

/-- The server's answer to SELECT, as used by `SyncMailbox`
(`selectData.UIDValidity`, `selectData.NumMessages`). -/
structure SelectData where
  uidValidity : Nat
  numMessages : Nat
  deriving Repr, DecidableEq

/-! ## Sync orchestrator (`internal/sync`) -/

/-- Mirrors `(*Syncer).filterUIDs`: keep, in order, the UIDs `≥ startUID`. -/
def filterUIDs (uids : List Nat) (startUID : Nat) : List Nat :=
  match uids with
  | [] => []
  | uid :: rest =>
      if uid ≥ startUID then uid :: filterUIDs rest startUID
      else filterUIDs rest startUID

/-- Mirrors the watermark invalidation in `SyncMailbox`:
`if state != nil && state.UIDValidity != selectData.UIDValidity { state = nil }`. -/
def resolveState (state0 : Option MailboxState) (selUV : Nat) : Option MailboxState :=
  match state0 with
  | some st => if st.uidValidity ≠ selUV then none else some st
  | none => none

/-- Mirrors `startUID := 1; if state != nil { startUID = state.LastUID + 1 }`.
The `+ 1` is Go `uint32` addition, hence the `% 2^32`. -/
def resolveStartUID (state : Option MailboxState) : Nat :=
  match state with
  | some st => (st.lastUID + 1) % 4294967296
  | none => 1

/-- The per-batch loop `for i := 0; i < len(uidsToSync); i += batchSize`
with `batch := uidsToSync[i:end]`, `batchSize = 5`, realised as the list of
successive slices. -/
def chunksOf5 (l : List Nat) : List (List Nat) :=
  if l.isEmpty then []
  else l.take 5 :: chunksOf5 (l.drop 5)
termination_by l.length
decreasing_by
  simp only [List.isEmpty_iff] at *
  have : 0 < l.length := List.length_pos.mpr (by assumption)
  simp [List.length_drop]; omega

/-- Observable side effects of one successful `SyncMailbox` run, in order:
each batch is fetched (`client.FetchMessagesWithContext`) then saved
(`storage.SaveEmailBatch`), and finally `updateMailboxState` may run
(`storage.SaveMailboxState`). -/
inductive Event where
  | fetchBatch (uids : List Nat)
  | saveBatch (uids : List Nat)
  | saveState (st : MailboxState)
  deriving Repr, DecidableEq

/-- Result of a `SyncMailbox` run: the returned stats and the ordered
trace of store/client effects. -/
structure SyncResult where
  stats : Stats
  trace : List Event
  deriving Repr, DecidableEq

/-- The mailbox state persisted by a run: the state of the last
`saveState` event of the trace, if any. -/
def savedState (trace : List Event) : Option MailboxState :=
  match trace with
  | [] => none
  | Event.saveState st :: rest => (savedState rest).getD st |> some
  | _ :: rest => savedState rest

/-- Mirrors `(*Syncer).updateMailboxState`. -/
def updateMailboxState (mailbox : String) (uidValidity lastUID now : Nat) :
    MailboxState :=
  { name := mailbox, uidValidity := uidValidity, lastUID := lastUID, lastSync := now }

/-- Mirrors `(*Syncer).SyncMailbox` on its success path: the select data,
the stored state and the UID SEARCH answer are inputs; every fetch and
`SaveEmailBatch`/`SaveMailboxState` succeeds, the context is never
cancelled, and the server returns exactly the requested UIDs for each
fetch.  `now` stands for `time.Now()` at the final state write. -/
def SyncMailbox (mailbox : String) (sel : SelectData)
    (state0 : Option MailboxState) (uids : List Nat) (now : Nat) : SyncResult :=
  let state := resolveState state0 sel.uidValidity
  let startUID := resolveStartUID state
  if sel.numMessages = 0 then
    { stats := ⟨0, 0⟩,
      trace := [Event.saveState (updateMailboxState mailbox sel.uidValidity 0 now)] }
  else if uids.isEmpty then
    { stats := ⟨0, 0⟩,
      trace := [Event.saveState (updateMailboxState mailbox sel.uidValidity 0 now)] }
  else
    let uidsToSync := filterUIDs uids startUID
    if uidsToSync.isEmpty then
      { stats := ⟨uids.length, 0⟩, trace := [] }
    else
      let maxUID := uidsToSync.getLastD 0
      { stats := ⟨uids.length, uidsToSync.length⟩,
        trace :=
          (chunksOf5 uidsToSync).flatMap
            (fun c => [Event.fetchBatch c, Event.saveBatch c]) ++
          [Event.saveState (updateMailboxState mailbox sel.uidValidity maxUID now)] }

/-- Mirrors `prioritizeInbox`. -/
def prioritizeInbox (mailboxes : List String) : List String :=
  if mailboxes.length = 0 then mailboxes
  else
    match mailboxes.findIdx? (· == "INBOX") with
    | none => mailboxes
    | some inboxIndex =>
        if inboxIndex = 0 then mailboxes
        else "INBOX" :: (mailboxes.take inboxIndex ++ mailboxes.drop (inboxIndex + 1))

/-! ## Gmail configuration (`internal/config`) and folder filter
(`internal/sync/gmail_filter.go`).

Folder names and patterns are modelled as `List Char`, matching the
character-wise slicing done by `simpleWildcardMatch` (all slicing there
happens at rune boundaries). -/

/-- Mirrors `config.GmailConfig`; the three `*bool` fields are tri-valued. -/
structure GmailConfig where
  enabled : Option Bool
  skipAllMail : Option Bool
  fetchLabels : Option Bool
  excludeFolders : List (List Char)
  includeFolders : List (List Char)
  deriving Repr, DecidableEq

namespace GmailConfig

/-- Mirrors `(*GmailConfig).IsEnabled`: true unless explicitly disabled. -/
def IsEnabled (g : GmailConfig) : Bool :=
  match g.enabled with
  | none => true
  | some b => b

/-- Mirrors `(*GmailConfig).ShouldSkipAllMail`: true by default. -/
def ShouldSkipAllMail (g : GmailConfig) : Bool :=
  match g.skipAllMail with
  | none => true
  | some b => b

/-- Mirrors `(*GmailConfig).ShouldFetchLabels`: true by default. -/
def ShouldFetchLabels (g : GmailConfig) : Bool :=
  match g.fetchLabels with
  | none => true
  | some b => b

end GmailConfig

/-- Mirrors `imap.IsGmailAllMail`. -/
def IsGmailAllMail (name : List Char) : Bool :=
  name = "[Gmail]/All Mail".data ∨ name = "[Google Mail]/All Mail".data

/-- Mirrors `sync.GmailFilter`. -/
structure GmailFilter where
  config : GmailConfig
  isGmail : Bool
  enabled : Bool
  deriving Repr, DecidableEq

/-- Mirrors `NewGmailFilter`: `enabled = cfg.IsEnabled() && isGmail`. -/
def NewGmailFilter (cfg : GmailConfig) (isGmail : Bool) : GmailFilter :=
  { config := cfg, isGmail := isGmail, enabled := cfg.IsEnabled && isGmail }

/-- Mirrors `simpleWildcardMatch(pattern, str)`:
exact equality, or split at the first `*` and require `str` to start
with the prefix; if the `*` is last we are done, otherwise `str` must
also end with the suffix. -/
def simpleWildcardMatch (pattern str : List Char) : Bool :=
  if pattern = str then true
  else
    match pattern.findIdx? (· = '*') with
    | none => false
    | some starIdx =>
        let pre := pattern.take starIdx
        if str.length < pre.length ∨ str.take pre.length ≠ pre then false
        else if starIdx = pattern.length - 1 then true
        else
          let suffix := pattern.drop (starIdx + 1)
          decide (str.length ≥ suffix.length ∧ str.drop (str.length - suffix.length) = suffix)

/-- Mirrors `(*GmailFilter).matchesPattern`. -/
def matchesPattern (mailbox pattern : List Char) : Bool :=
  if mailbox = pattern then true
  else simpleWildcardMatch pattern mailbox

/-- Mirrors `(*GmailFilter).matchesAnyPattern`. -/
def matchesAnyPattern (mailbox : List Char) (patterns : List (List Char)) : Bool :=
  patterns.any (fun pattern => matchesPattern mailbox pattern)

/-- Mirrors `(*GmailFilter).ShouldSkipMailbox`, rule by rule in source
order. -/
def ShouldSkipMailbox (f : GmailFilter) (mailbox : List Char) : Bool :=
  if ¬f.enabled then false
  else if f.config.includeFolders.length > 0 then
    ¬matchesAnyPattern mailbox f.config.includeFolders
  else if f.config.ShouldSkipAllMail && IsGmailAllMail mailbox then true
  else if f.config.excludeFolders.length > 0 then
    matchesAnyPattern mailbox f.config.excludeFolders
  else false

/-- Mirrors `(*GmailFilter).FilterMailboxes`. -/
def FilterMailboxes (f : GmailFilter) (mailboxes : List (List Char)) : List (List Char) :=
  if ¬f.enabled then mailboxes
  else mailboxes.filter (fun mailbox => ¬ShouldSkipMailbox f mailbox)

/-! ## IMAP client (`internal/imap`): Gmail label extraction -/

/-- Mirrors `isStandardIMAPFlag`: membership in the six-entry map. -/
def isStandardIMAPFlag (flag : List Char) : Bool :=
  flag = "\\Seen".data ∨ flag = "\\Answered".data ∨ flag = "\\Flagged".data ∨
  flag = "\\Deleted".data ∨ flag = "\\Draft".data ∨ flag = "\\Recent".data

/-- Mirrors `strings.TrimPrefix(s, "\\")`: drop one leading backslash if
present. -/
def trimBackslashPrefix (s : List Char) : List Char :=
  match s with
  | '\\' :: rest => rest
  | _ => s

/-- Mirrors `extractGmailLabels`: a non-standard flag contributes the
flag with one leading backslash stripped, provided the stripped form is
non-empty and differs from the original (i.e. a backslash was actually
stripped). -/
def extractGmailLabels (flags : List (List Char)) : List (List Char) :=
  match flags with
  | [] => []
  | flag :: rest =>
      if ¬isStandardIMAPFlag flag then
        let label := trimBackslashPrefix flag
        if label ≠ [] ∧ label ≠ flag then label :: extractGmailLabels rest
        else extractGmailLabels rest
      else extractGmailLabels rest

/-! ## IMAP client: network-error classification and retry decorator -/

/-- A Go `error` value as `isNetworkError` inspects it: whether
`errors.Is` matches `io.EOF` / `io.ErrUnexpectedEOF`, whether
`errors.As` finds a `net.Error` in the chain, and the `Error()` string. -/
structure GoError where
  isEOF : Bool
  isUnexpectedEOF : Bool
  isNetErrInterface : Bool
  msg : List Char
  deriving Repr, DecidableEq

/-- `strings.Contains(s, pat)`. -/
def containsSubstr (pat : List Char) : List Char → Bool
  | [] => pat.isEmpty
  | c :: rest => pat.isPrefixOf (c :: rest) || containsSubstr pat rest

/-- The substring patterns of `networkErrorPatterns`. -/
def networkErrorPatterns : List (List Char) :=
  ["connection reset".data, "broken pipe".data, "connection refused".data,
   "no route to host".data, "network is unreachable".data,
   "i/o timeout".data, "connection timed out".data]

/-- Mirrors `isNetworkError` (for a non-nil error). -/
def isNetworkError (e : GoError) : Bool :=
  e.isEOF || e.isUnexpectedEOF || e.isNetErrInterface ||
  networkErrorPatterns.any (fun pattern => containsSubstr pattern e.msg)

/-- Result of one invocation of the wrapped operation. -/
inductive OpResult where
  | ok
  | err (e : GoError)
  deriving Repr, DecidableEq

/-- Outcome of `withRetry`, mirroring its return paths: success, a
non-network error returned verbatim, `"reconnection failed: ..."`, or
`"operation failed after N retries: ..."` wrapping the last network
error. -/
inductive RetryOutcome where
  | success
  | opError (e : GoError)
  | reconnectFailed
  | exhausted (lastErr : Option GoError)
  deriving Repr, DecidableEq

/-- One iteration of the `for attempt := 0; attempt <= c.retries` loop
of `withRetry`, with `remaining` iterations left (initially
`retries + 1`); the context is never cancelled.  `rec k` tells whether
the reconnection before attempt `k` succeeds; `op k` is the result of
the `k`-th invocation of the operation.  Returns the outcome and the
number of invocations of the operation actually made. -/
def retryIter (rec : Nat → Bool) (op : Nat → OpResult) :
    Nat → Nat → Option GoError → RetryOutcome × Nat
  | _, 0, lastErr => (RetryOutcome.exhausted lastErr, 0)
  | attempt, remaining + 1, _lastErr =>
      if attempt > 0 ∧ ¬(rec attempt) then (RetryOutcome.reconnectFailed, 0)
      else
        match op attempt with
        | OpResult.ok => (RetryOutcome.success, 1)
        | OpResult.err e =>
            if ¬isNetworkError e then (RetryOutcome.opError e, 1)
            else
              let r := retryIter rec op (attempt + 1) remaining (some e)
              (r.1, r.2 + 1)

/-- Mirrors `(*Client).withRetry` with retry budget `retries`
(`c.retries`). -/
def withRetry (retries : Nat) (rec : Nat → Bool) (op : Nat → OpResult) :
    RetryOutcome × Nat :=
  retryIter rec op 0 (retries + 1) none

/-- `c.retries` as set by `imap.Connect`. -/
def clientRetries : Nat := 3

/-! ## Storage engine (`internal/storage`): compression and `GetEmail`

The gzip layer itself is Go's `compress/gzip`, external to the
repository; it is modelled as an abstract codec.  Its documented
contract (round-trip identity, output framed by the two gzip magic
bytes `0x1f 0x8b`, reader construction fails when the input does not
begin with them) enters the theorems as hypotheses on the codec.
Writing to a `bytes.Buffer` never fails, so `compress` is total. -/

/-- Abstract gzip codec: `compress` is `gzip.NewWriter` + `Write` +
`Close` over a `bytes.Buffer`; `decompress` is `gzip.NewReader` +
`io.ReadAll`, which can fail. -/
structure GzipCodec where
  compress : List Nat → List Nat
  decompress : List Nat → Except String (List Nat)

/-- The two gzip magic bytes every gzip stream starts with. -/
def gzipMagic : List Nat := [31, 139]

/-- Mirrors `storage.compressData`: empty input is returned as is,
otherwise the gzip writer output. -/
def compressData (g : GzipCodec) (data : List Nat) : Except String (List Nat) :=
  if data.length = 0 then Except.ok data
  else Except.ok (g.compress data)

/-- Mirrors `storage.decompressData`: empty input is returned as is,
otherwise the gzip reader output (or its error). -/
def decompressData (g : GzipCodec) (data : List Nat) : Except String (List Nat) :=
  if data.length = 0 then Except.ok data
  else g.decompress data

/-- A row of the `emails` table as `GetEmail` reads it.  The
`to_addrs` and `flags` columns hold `json.Marshal` output of string
lists; `json.Marshal` on `[]string` cannot fail and `json.Unmarshal`
inverts it, so the JSON text is carried in decoded form. -/
structure EmailMetaRow where
  mailbox : String
  uid : Nat
  subject : String
  fromAddr : String
  toAddrs : List String
  date : Int
  size : Nat
  flags : List String
  synced : Int
  deriving Repr, DecidableEq

/-- A row of the `email_content` table: the three gzipped blobs. -/
structure ContentRow where
  mailbox : String
  uid : Nat
  body : List Nat
  headers : List Nat
  rawMessage : List Nat
  deriving Repr, DecidableEq

/-- The two tables `GetEmail` touches.  `(mailbox, uid)` is the primary
key of both. -/
structure StoreDB where
  emails : List EmailMetaRow
  contents : List ContentRow

/-- Mirrors `storage.Email` as far as `GetEmail` fills it. -/
structure Email where
  uid : Nat
  mailbox : String
  subject : String
  fromAddr : String
  toAddrs : List String
  date : Int
  size : Nat
  flags : List String
  body : List Nat
  headers : List Nat
  rawMessage : List Nat
  synced : Int
  deriving Repr, DecidableEq

/-- Point lookup on the `emails` primary key (the `WHERE` clause is
written on the metadata side of the join). -/
def findMetaRow (db : StoreDB) (mailbox : String) (uid : Nat) : Option EmailMetaRow :=
  db.emails.find? (fun r => r.mailbox = mailbox ∧ r.uid = uid)

/-- Point lookup on the `email_content` primary key (the LEFT JOIN's
`ON` condition). -/
def findContentRow (db : StoreDB) (mailbox : String) (uid : Nat) : Option ContentRow :=
  db.contents.find? (fun r => r.mailbox = mailbox ∧ r.uid = uid)

/-- Mirrors `(*Storage).GetEmail`: the metadata row is required
(`sql.ErrNoRows` maps to `ok none`); the content columns come from the
LEFT JOIN, and when no content row matches they scan as SQL `NULL`,
which lands in a `[]byte` as `nil` — the empty byte slice here.  The
three blobs are then decompressed. -/
def GetEmail (g : GzipCodec) (db : StoreDB) (mailbox : String) (uid : Nat) :
    Except String (Option Email) :=
  match findMetaRow db mailbox uid with
  | none => Except.ok none
  | some meta =>
      let content := findContentRow db mailbox uid
      let compressedBody := match content with | some c => c.body | none => []
      let compressedHeaders := match content with | some c => c.headers | none => []
      let compressedRawMessage := match content with | some c => c.rawMessage | none => []
      match decompressData g compressedBody with
      | Except.error e => Except.error e
      | Except.ok body =>
      match decompressData g compressedHeaders with
      | Except.error e => Except.error e
      | Except.ok headers =>
      match decompressData g compressedRawMessage with
      | Except.error e => Except.error e
      | Except.ok rawMessage =>
          Except.ok (some
            { uid := meta.uid, mailbox := meta.mailbox, subject := meta.subject,
              fromAddr := meta.fromAddr, toAddrs := meta.toAddrs, date := meta.date,
              size := meta.size, flags := meta.flags,
              body := body, headers := headers, rawMessage := rawMessage,
              synced := meta.synced })

/-- Formalizes claim C8's characterization of label extraction: a token
is extracted iff it is non-standard, carries a leading backslash, and is
non-empty once that backslash is stripped; the extracted label is the
stripped token.  (Stated from the claim's words, to be compared with
`extractGmailLabels`, which is translated from the source.) -/
def gmailLabelOfFlag (flag : List Char) : Option (List Char) :=
  match flag with
  | '\\' :: rest =>
      if isStandardIMAPFlag ('\\' :: rest) ∨ rest = [] then none else some rest
  | _ => none

end Imapsync

namespace Imapsync

/-! ## General lemmas -/

lemma savedState_append_saveState (evs : List Event) (s : MailboxState) :
    savedState (evs ++ [Event.saveState s]) = some s := by
  induction evs with
  | nil => simp [savedState]
  | cons e rest ih =>
      cases e with
      | saveState st => simp [savedState, ih]
      | fetchBatch u => simpa [savedState] using ih
      | saveBatch u => simpa [savedState] using ih

lemma filterUIDs_eq_filter (uids : List Nat) (s : Nat) :
    filterUIDs uids s = uids.filter (fun u => s ≤ u) := by
  induction uids with
  | nil => simp [filterUIDs]
  | cons u rest ih =>
      by_cases h : s ≤ u <;> simp [filterUIDs, h, ih]

lemma mem_filterUIDs {x : Nat} {uids : List Nat} {s : Nat}
    (h : x ∈ filterUIDs uids s) : s ≤ x := by
  rw [filterUIDs_eq_filter] at h
  have := (List.mem_filter.mp h).2
  simpa using this

lemma getLastD_mem (l : List Nat) (h : l ≠ []) : l.getLastD 0 ∈ l := by
  rw [List.getLastD_eq_getLast?, List.getLast?_eq_getLast l h]
  exact List.getLast_mem h

/-! ## Lemmas about the batch partition -/

lemma chunksOf5_nil : chunksOf5 [] = [] := by
  rw [chunksOf5]; simp

lemma chunksOf5_cons (l : List Nat) (h : l ≠ []) :
    chunksOf5 l = l.take 5 :: chunksOf5 (l.drop 5) := by
  rw [chunksOf5]
  simp [List.isEmpty_iff, h]

lemma chunksOf5_ne_nil (l : List Nat) (h : l ≠ []) : chunksOf5 l ≠ [] := by
  rw [chunksOf5_cons l h]; simp

lemma chunksOf5_flatten (l : List Nat) : (chunksOf5 l).flatten = l := by
  by_cases h : l = []
  · subst h; simp [chunksOf5_nil]
  · rw [chunksOf5_cons l h]
    have ih := chunksOf5_flatten (l.drop 5)
    simp [ih]
termination_by l.length
decreasing_by
  have : 0 < l.length := List.length_pos.mpr h
  simp [List.length_drop]; omega

lemma chunksOf5_mem (l : List Nat) :
    ∀ c ∈ chunksOf5 l, c ≠ [] ∧ c.length ≤ 5 := by
  by_cases h : l = []
  · subst h; simp [chunksOf5_nil]
  · rw [chunksOf5_cons l h]
    intro c hc
    rcases List.mem_cons.mp hc with hc | hc
    · subst hc
      constructor
      · simpa using h
      · simp
    · exact chunksOf5_mem (l.drop 5) c hc
termination_by l.length
decreasing_by
  have : 0 < l.length := List.length_pos.mpr h
  simp [List.length_drop]; omega

lemma chunksOf5_dropLast (l : List Nat) :
    ∀ c ∈ (chunksOf5 l).dropLast, c.length = 5 := by
  by_cases h : l = []
  · subst h; simp [chunksOf5_nil]
  · rw [chunksOf5_cons l h]
    by_cases h5 : l.drop 5 = []
    · rw [h5, chunksOf5_nil]
      simp
    · intro c hc
      rw [List.dropLast_cons_of_ne_nil (chunksOf5_ne_nil _ h5)] at hc
      rcases List.mem_cons.mp hc with hc | hc
      · subst hc
        have h5' : 5 ≤ l.length := by
          by_contra hlt
          exact h5 (List.drop_eq_nil_of_le (by omega))
        simp [List.length_take]
        omega
      · exact chunksOf5_dropLast (l.drop 5) c hc
termination_by l.length
decreasing_by
  have : 0 < l.length := List.length_pos.mpr h
  simp [List.length_drop]; omega

/-! ## Lemmas for `prioritizeInbox` -/

lemma erase_eq_take_append_drop (l : List String) (i : Nat)
    (h : l.findIdx? (· == "INBOX") = some i) :
    l.erase "INBOX" = l.take i ++ l.drop (i + 1) := by
  induction l generalizing i with
  | nil => simp [List.findIdx?] at h
  | cons a t ih =>
      rw [List.findIdx?_cons] at h
      by_cases ha : (a == "INBOX") = true
      · rw [if_pos ha] at h
        injection h with h
        subst h
        have ha' : a = "INBOX" := by simpa using ha
        simp [List.erase_cons, ha']
      · rw [if_neg ha, List.findIdx?_succ] at h
        rcases Option.map_eq_some'.mp h with ⟨j, hj, rfl⟩
        have ha' : (a == "INBOX") = false := by simpa using ha
        simp [List.erase_cons, ha', ih j hj]

lemma findIdx?_inbox_of_mem {l : List String} (h : "INBOX" ∈ l) :
    ∃ i, l.findIdx? (· == "INBOX") = some i := by
  cases hf : l.findIdx? (· == "INBOX") with
  | some i => exact ⟨i, rfl⟩
  | none =>
      have := List.findIdx?_eq_none_iff.mp hf "INBOX" h
      simp at this

lemma findIdx?_zero_head {l : List String}
    (h : l.findIdx? (· == "INBOX") = some 0) : l.head? = some "INBOX" := by
  cases l with
  | nil => simp [List.findIdx?] at h
  | cons a t =>
      rw [List.findIdx?_cons] at h
      by_cases ha : (a == "INBOX") = true
      · have : a = "INBOX" := by simpa using ha
        simp [this]
      · rw [if_neg ha, List.findIdx?_succ] at h
        rcases Option.map_eq_some'.mp h with ⟨j, _, hj⟩
        omega

/-- Claim C9: `prioritizeInbox L` equals `L` when `L` contains no
`"INBOX"` or when `L`'s first element is `"INBOX"`; otherwise it is
`"INBOX"` followed by `L` with its first occurrence of `"INBOX"`
removed, preserving the relative order of the other elements; the
empty list maps to itself. -/
theorem C9_prioritizeInbox (l : List String) :
    (prioritizeInbox ([] : List String) = []) ∧
    ("INBOX" ∉ l → prioritizeInbox l = l) ∧
    (l.head? = some "INBOX" → prioritizeInbox l = l) ∧
    ("INBOX" ∈ l → l.head? ≠ some "INBOX" →
      prioritizeInbox l = "INBOX" :: l.erase "INBOX") := by
  refine ⟨rfl, ?_, ?_, ?_⟩
  · intro hmem
    unfold prioritizeInbox
    have hnone : l.findIdx? (· == "INBOX") = none := by
      rw [List.findIdx?_eq_none_iff]
      intro x hx
      have : x ≠ "INBOX" := fun h => hmem (h ▸ hx)
      simpa using this
    simp [hnone]
  · intro hhead
    unfold prioritizeInbox
    cases hf : l.findIdx? (· == "INBOX") with
    | none => simp
    | some i =>
        cases i with
        | zero => simp
        | succ j =>
            exfalso
            rcases l with _ | ⟨a, t⟩
            · simp at hhead
            · have ha : a = "INBOX" := by
                simpa using hhead
              rw [List.findIdx?_cons] at hf
              have : (a == "INBOX") = true := by simp [ha]
              rw [if_pos this] at hf
              simp at hf
  · intro hmem hhead
    obtain ⟨i, hf⟩ := findIdx?_inbox_of_mem hmem
    have hi : i ≠ 0 := by
      intro h0
      exact hhead (findIdx?_zero_head (h0 ▸ hf))
    have hlen : l.length ≠ 0 := by
      intro h0
      rw [List.length_eq_zero] at h0
      subst h0
      simp at hmem
    unfold prioritizeInbox
    rw [if_neg hlen, hf]
    simp only [if_neg hi]
    rw [erase_eq_take_append_drop l i hf]

/-- Witness for C9 at a concrete list with `"INBOX"` in second
position. -/
theorem C9_prioritizeInbox_witness :
    "INBOX" ∈ ["A", "INBOX", "B"] ∧
    (["A", "INBOX", "B"] : List String).head? ≠ some "INBOX" ∧
    prioritizeInbox ["A", "INBOX", "B"] =
      "INBOX" :: (["A", "INBOX", "B"] : List String).erase "INBOX" :=
  ⟨by decide, by decide,
    (C9_prioritizeInbox ["A", "INBOX", "B"]).2.2.2 (by decide) (by decide)⟩

/-! ## Claim C8: Gmail label extraction -/

lemma trimBackslashPrefix_backslash (rest : List Char) :
    trimBackslashPrefix ('\\' :: rest) = rest := rfl

lemma trimBackslashPrefix_of_not_backslash {flag : List Char}
    (h : ∀ rest, flag ≠ '\\' :: rest) : trimBackslashPrefix flag = flag := by
  cases flag with
  | nil => rfl
  | cons c rest =>
      by_cases hc : c = '\\'
      · exact absurd (hc ▸ rfl) (h rest)
      · unfold trimBackslashPrefix
        split
        · rename_i heq
          injection heq with h1 _
          exact absurd h1 hc
        · rfl

/-- Claim C8: `extractGmailLabels` keeps exactly the non-standard flag
tokens that carry a leading backslash and are non-empty once it is
stripped, in order, each mapped to its stripped form; a non-standard
token without a leading backslash, or one that strips to the empty
string, contributes nothing. -/
theorem C8_extractGmailLabels (flags : List (List Char)) :
    extractGmailLabels flags = flags.filterMap gmailLabelOfFlag := by
  induction flags with
  | nil => rfl
  | cons flag rest ih =>
      cases flag with
      | nil =>
          simp only [extractGmailLabels, List.filterMap_cons]
          have hstd : isStandardIMAPFlag ([] : List Char) = false := by decide
          simp [hstd, trimBackslashPrefix, gmailLabelOfFlag, ih]
      | cons c cs =>
          by_cases hc : c = '\\'
          · subst hc
            simp only [extractGmailLabels, List.filterMap_cons, gmailLabelOfFlag]
            by_cases hstd : isStandardIMAPFlag ('\\' :: cs) = true
            · simp [hstd, ih]
            · have hstd' : isStandardIMAPFlag ('\\' :: cs) = false := by
                simpa using hstd
              by_cases hcs : cs = []
              · subst hcs
                simp [hstd', trimBackslashPrefix, ih]
              · have hne : cs ≠ '\\' :: cs := (List.cons_ne_self '\\' cs).symm
                simp [hstd', trimBackslashPrefix, hcs, hne, ih]
          · have hnb : ∀ r, (c :: cs) ≠ '\\' :: r := by
              intro r hr
              injection hr with h1 _
              exact hc h1
            have htrim : trimBackslashPrefix (c :: cs) = c :: cs :=
              trimBackslashPrefix_of_not_backslash hnb
            have hlab : gmailLabelOfFlag (c :: cs) = none := by
              unfold gmailLabelOfFlag
              split
              · rename_i heq
                exact absurd heq (hnb _)
              · rfl
            simp only [extractGmailLabels, List.filterMap_cons, hlab, htrim]
            by_cases hstd : isStandardIMAPFlag (c :: cs) = true
            · simp [hstd, ih]
            · have hstd' : isStandardIMAPFlag (c :: cs) = false := by simpa using hstd
              simp [hstd', ih]

/-! ## Claim C7: wildcard pattern matching -/

lemma findStar_none_iff (p : List Char) :
    p.findIdx? (· = '*') = none ↔ '*' ∉ p := by
  rw [List.findIdx?_eq_none_iff]
  constructor
  · intro h hmem
    have := h '*' hmem
    simp at this
  · intro h x hx
    have : x ≠ '*' := fun he => h (he ▸ hx)
    simpa using this

lemma findStar_some (p : List Char) (i : Nat)
    (h : p.findIdx? (· = '*') = some i) :
    p.take i = p.takeWhile (· ≠ '*') ∧
    p.drop (i + 1) = (p.dropWhile (· ≠ '*')).tail ∧
    '*' ∈ p ∧ i < p.length := by
  induction p generalizing i with
  | nil => simp [List.findIdx?] at h
  | cons a t ih =>
      rw [List.findIdx?_cons] at h
      by_cases ha : a = '*'
      · rw [if_pos (by simpa using ha)] at h
        injection h with h
        subst h
        subst ha
        refine ⟨by simp [List.takeWhile_cons], ?_, by simp, by simp⟩
        simp [List.dropWhile_cons]
      · rw [if_neg (by simpa using ha), List.findIdx?_succ] at h
        rcases Option.map_eq_some'.mp h with ⟨j, hj, rfl⟩
        obtain ⟨h1, h2, h3, h4⟩ := ih j hj
        refine ⟨?_, ?_, List.mem_cons_of_mem a h3, by simpa using h4⟩
        · simp [List.takeWhile_cons, ha, h1]
        · simp [List.dropWhile_cons, ha, h2]

lemma prefix_iff_take_eq (pre str : List Char) :
    pre <+: str ↔ str.take pre.length = pre := by
  rw [List.prefix_iff_eq_take]
  exact ⟨fun h => h.symm, fun h => h.symm⟩

lemma prefix_length_le_of_take_eq {pre str : List Char}
    (h : str.take pre.length = pre) : pre.length ≤ str.length := by
  have := congrArg List.length h
  simp [List.length_take] at this
  omega

lemma suffix_iff_drop_eq (suf str : List Char) :
    suf <:+ str ↔
      (str.length ≥ suf.length ∧ str.drop (str.length - suf.length) = suf) := by
  constructor
  · intro h
    refine ⟨h.length_le, ?_⟩
    exact (List.suffix_iff_eq_drop.mp h).symm
  · intro ⟨_, h⟩
    exact List.suffix_iff_eq_drop.mpr h.symm

/-- Claim C7: the filter's pattern match succeeds iff the mailbox and
the pattern are exactly equal, or the pattern contains `*` and,
splitting the pattern at its first `*`, the mailbox starts with the
prefix and ends with the suffix; the three concrete examples of the
claim follow. -/
theorem C7_matchesPattern (mailbox pattern : List Char) :
    (matchesPattern mailbox pattern = true ↔
      (mailbox = pattern ∨
        ('*' ∈ pattern ∧
          pattern.takeWhile (· ≠ '*') <+: mailbox ∧
          (pattern.dropWhile (· ≠ '*')).tail <:+ mailbox))) ∧
    matchesPattern "[Gmail]/Spam".data "[Gmail]/*".data = true ∧
    matchesPattern "INBOX".data "[Gmail]/*".data = false ∧
    matchesPattern "[Gmail]/Spam".data "*Spam".data = true := by
  refine ⟨?_, by decide, by decide, by decide⟩
  unfold matchesPattern
  by_cases hmp : mailbox = pattern
  · simp [hmp]
  · rw [if_neg hmp]
    unfold simpleWildcardMatch
    rw [if_neg (fun h => hmp h.symm)]
    cases hf : pattern.findIdx? (· = '*') with
    | none =>
        have hstar : '*' ∉ pattern := (findStar_none_iff pattern).mp hf
        simp [hmp, hstar]
    | some i =>
        obtain ⟨htake, hdrop, hstar, hlt⟩ := findStar_some pattern i hf
        rw [← htake, ← hdrop]
        dsimp only
        by_cases hpre : mailbox.length < (pattern.take i).length ∨
            mailbox.take (pattern.take i).length ≠ pattern.take i
        · rw [if_pos hpre]
          have hnp : ¬(pattern.take i <+: mailbox) := by
            intro hp
            have ht := (prefix_iff_take_eq _ _).mp hp
            rcases hpre with hl | hne
            · exact absurd (prefix_length_le_of_take_eq ht) (by omega)
            · exact hne ht
          simp [hmp, hnp]
        · rw [if_neg hpre]
          push_neg at hpre
          obtain ⟨hlen, heq⟩ := hpre
          have hp : pattern.take i <+: mailbox := (prefix_iff_take_eq _ _).mpr heq
          by_cases hend : i = pattern.length - 1
          · rw [if_pos hend]
            have hnil : pattern.drop (i + 1) = [] := by
              apply List.drop_eq_nil_of_le
              omega
            rw [hnil]
            simp [hstar, hp, List.nil_suffix]
          · rw [if_neg hend]
            rw [decide_eq_true_iff]
            rw [← suffix_iff_drop_eq]
            simp [hmp, hstar, hp]

/-! ## Claim C6: the Gmail filter's decision order -/

/-- Claim C6: `ShouldSkipMailbox` evaluates its rules in the source's
fixed order: false when not effective-enabled (where effective-enabled
is the configured enabled flag — default true — AND `isGmailServer`);
with a non-empty include list, skip iff no include pattern matches,
overriding everything below; then the All-Mail rule (in effect by
default); then the exclude list; otherwise false. -/
theorem C6_ShouldSkipMailbox (cfg : GmailConfig) (isGmail : Bool) (mailbox : List Char) :
    (cfg.enabled = none → cfg.IsEnabled = true) ∧
    (cfg.skipAllMail = none → cfg.ShouldSkipAllMail = true) ∧
    (¬(cfg.IsEnabled = true ∧ isGmail = true) →
      ShouldSkipMailbox (NewGmailFilter cfg isGmail) mailbox = false) ∧
    (cfg.IsEnabled = true → isGmail = true → cfg.includeFolders ≠ [] →
      (ShouldSkipMailbox (NewGmailFilter cfg isGmail) mailbox = true ↔
        matchesAnyPattern mailbox cfg.includeFolders = false)) ∧
    (cfg.IsEnabled = true → isGmail = true → cfg.includeFolders = [] →
      cfg.ShouldSkipAllMail = true → IsGmailAllMail mailbox = true →
      ShouldSkipMailbox (NewGmailFilter cfg isGmail) mailbox = true) ∧
    (cfg.IsEnabled = true → isGmail = true → cfg.includeFolders = [] →
      ¬(cfg.ShouldSkipAllMail = true ∧ IsGmailAllMail mailbox = true) →
      cfg.excludeFolders ≠ [] →
      (ShouldSkipMailbox (NewGmailFilter cfg isGmail) mailbox = true ↔
        matchesAnyPattern mailbox cfg.excludeFolders = true)) ∧
    (cfg.IsEnabled = true → isGmail = true → cfg.includeFolders = [] →
      ¬(cfg.ShouldSkipAllMail = true ∧ IsGmailAllMail mailbox = true) →
      cfg.excludeFolders = [] →
      ShouldSkipMailbox (NewGmailFilter cfg isGmail) mailbox = false) := by
  refine ⟨?_, ?_, ?_, ?_, ?_, ?_, ?_⟩
  · intro h; simp [GmailConfig.IsEnabled, h]
  · intro h; simp [GmailConfig.ShouldSkipAllMail, h]
  · intro h
    have hen : (cfg.IsEnabled && isGmail) = false := by
      cases hE : cfg.IsEnabled <;> cases hG : isGmail <;> simp_all
    simp [ShouldSkipMailbox, NewGmailFilter, hen]
  · intro he hg hinc
    have hlen : 0 < cfg.includeFolders.length := List.length_pos.mpr hinc
    simp [ShouldSkipMailbox, NewGmailFilter, he, hg, hlen]
  · intro he hg hinc hskip hall
    simp [ShouldSkipMailbox, NewGmailFilter, he, hg, hinc, hskip, hall]
  · intro he hg hinc hnall hexc
    have hlen : 0 < cfg.excludeFolders.length := List.length_pos.mpr hexc
    have hna : (cfg.ShouldSkipAllMail && IsGmailAllMail mailbox) = false := by
      cases hs : cfg.ShouldSkipAllMail <;> cases ha : IsGmailAllMail mailbox <;> simp_all
    simp only [ShouldSkipMailbox, NewGmailFilter, he, hg, hinc] at *
    simp [hlen, hna]
  · intro he hg hinc hnall hexc
    have hna : (cfg.ShouldSkipAllMail && IsGmailAllMail mailbox) = false := by
      cases hs : cfg.ShouldSkipAllMail <;> cases ha : IsGmailAllMail mailbox <;> simp_all
    simp [ShouldSkipMailbox, NewGmailFilter, he, hg, hinc, hexc, hna]

/-- Witness for C6: with default config on a Gmail server, All Mail is
skipped. -/
theorem C6_ShouldSkipMailbox_witness :
    ShouldSkipMailbox
      (NewGmailFilter ⟨none, none, none, [], []⟩ true) "[Gmail]/All Mail".data = true :=
  (C6_ShouldSkipMailbox ⟨none, none, none, [], []⟩ true "[Gmail]/All Mail".data).2.2.2.2.1
    (by decide) rfl rfl (by decide) (by decide)

/-! ## Claim C5: the retry decorator -/

lemma retryIter_count_le (rec : Nat → Bool) (op : Nat → OpResult) :
    ∀ (fuel attempt : Nat) (lastErr : Option GoError),
      (retryIter rec op attempt fuel lastErr).2 ≤ fuel := by
  intro fuel
  induction fuel with
  | zero => intro attempt lastErr; simp [retryIter]
  | succ f ih =>
      intro attempt lastErr
      unfold retryIter
      by_cases hrec : attempt > 0 ∧ ¬(rec attempt) = true
      · rw [if_pos hrec]; omega
      · rw [if_neg hrec]
        cases op attempt with
        | ok => simp
        | err e =>
            dsimp only
            by_cases hnet : ¬isNetworkError e = true
            · rw [if_pos hnet]; simp
            · rw [if_neg hnet]
              have := ih (attempt + 1) (some e)
              simpa using Nat.succ_le_succ this

lemma retryIter_opError (rec : Nat → Bool) (op : Nat → OpResult) (e : GoError)
    (hnet : isNetworkError e = false) :
    ∀ (k fuel attempt : Nat) (lastErr : Option GoError), k < fuel →
      (∀ j < k, ∃ ej, op (attempt + j) = OpResult.err ej ∧ isNetworkError ej = true) →
      (∀ j, attempt < j → j ≤ attempt + k → rec j = true) →
      (attempt = 0 ∨ rec attempt = true) →
      op (attempt + k) = OpResult.err e →
      retryIter rec op attempt fuel lastErr = (RetryOutcome.opError e, k + 1) := by
  intro k
  induction k with
  | zero =>
      intro fuel attempt lastErr hk _ _ hrec0 hop
      obtain ⟨f, rfl⟩ : ∃ f, fuel = f + 1 := ⟨fuel - 1, by omega⟩
      unfold retryIter
      have hcond : ¬(attempt > 0 ∧ ¬(rec attempt) = true) := by
        rcases hrec0 with h0 | hr
        · omega
        · intro ⟨_, hneg⟩; exact hneg hr
      rw [if_neg hcond]
      rw [Nat.add_zero] at hop
      rw [hop]
      dsimp only
      rw [if_pos (by simp [hnet])]
  | succ k ih =>
      intro fuel attempt lastErr hk hnetj hrec hrec0 hop
      obtain ⟨f, rfl⟩ : ∃ f, fuel = f + 1 := ⟨fuel - 1, by omega⟩
      unfold retryIter
      have hcond : ¬(attempt > 0 ∧ ¬(rec attempt) = true) := by
        rcases hrec0 with h0 | hr
        · omega
        · intro ⟨_, hneg⟩; exact hneg hr
      rw [if_neg hcond]
      obtain ⟨e0, he0, he0net⟩ := hnetj 0 (by omega)
      rw [Nat.add_zero] at he0
      rw [he0]
      dsimp only
      rw [if_neg (by simp [he0net])]
      have hrest : retryIter rec op (attempt + 1) f (some e0) =
          (RetryOutcome.opError e, k + 1) := by
        apply ih f (attempt + 1) (some e0) (by omega)
        · intro j hj
          obtain ⟨ej, hej, hejnet⟩ := hnetj (j + 1) (by omega)
          exact ⟨ej, by rw [← hej]; ring_nf, hejnet⟩
        · intro j hj1 hj2
          exact hrec j (by omega) (by omega)
        · right
          exact hrec (attempt + 1) (by omega) (by omega)
        · rw [← hop]; ring_nf
      simp [hrest]

/-- Claim C5: under the client's retry decorator (`c.retries = 3`), an
attempt that fails with an error not classified as a network error is
returned immediately, with no further invocation of the inner
operation; and the inner operation is invoked at most 4 times in
total. -/
theorem C5_withRetry :
    (∀ (rec : Nat → Bool) (op : Nat → OpResult) (k : Nat) (e : GoError),
      k ≤ clientRetries →
      (∀ j < k, ∃ ej, op j = OpResult.err ej ∧ isNetworkError ej = true) →
      (∀ j, 0 < j → j ≤ k → rec j = true) →
      op k = OpResult.err e →
      isNetworkError e = false →
      withRetry clientRetries rec op = (RetryOutcome.opError e, k + 1)) ∧
    (∀ (rec : Nat → Bool) (op : Nat → OpResult),
      (withRetry clientRetries rec op).2 ≤ clientRetries + 1) := by
  constructor
  · intro rec op k e hk hnetj hrec hop hnet
    unfold withRetry
    apply retryIter_opError rec op e hnet k (clientRetries + 1) 0 none (by omega)
    · intro j hj
      simpa using hnetj j hj
    · intro j hj1 hj2
      exact hrec j (by omega) (by omega)
    · left; rfl
    · simpa using hop
  · intro rec op
    exact retryIter_count_le rec op (clientRetries + 1) 0 none

/-- Witness for C5: a network error on attempt 0 followed by a
non-network error on attempt 1 yields that error after exactly 2
attempts; a always-succeeding operation stays within the 4-attempt
bound. -/
theorem C5_withRetry_witness :
    withRetry clientRetries (fun _ => true)
      (fun k => if k = 0 then OpResult.err ⟨true, false, false, []⟩
                else OpResult.err ⟨false, false, false, "oops".data⟩) =
      (RetryOutcome.opError ⟨false, false, false, "oops".data⟩, 2) ∧
    (withRetry clientRetries (fun _ => true) (fun _ => OpResult.ok)).2 ≤
      clientRetries + 1 := by
  constructor
  · apply C5_withRetry.1 (fun _ => true)
      (fun k => if k = 0 then OpResult.err ⟨true, false, false, []⟩
                else OpResult.err ⟨false, false, false, "oops".data⟩) 1
      ⟨false, false, false, "oops".data⟩ (by decide)
    · intro j hj
      have : j = 0 := by omega
      subst this
      exact ⟨⟨true, false, false, []⟩, rfl, by decide⟩
    · intro j _ _; rfl
    · rfl
    · decide
  · exact C5_withRetry.2 (fun _ => true) (fun _ => OpResult.ok)

/-! ## Claim C4: gzip round-trip through the storage wrappers -/

/-- Claim C4: for every byte sequence, decompressing the output of
`compressData` gives the input back byte-exactly; `compressData` and
`decompressData` both map empty input to empty output; and
`decompressData` of a non-empty input that does not start with the gzip
magic bytes returns an error.  The gzip library itself is abstract; its
contract (round-trip identity, output framed with the magic bytes,
reader-construction failure on a bad header) is hypothesised. -/
theorem C4_gzip_roundtrip (g : GzipCodec)
    (hround : ∀ x, g.decompress (g.compress x) = Except.ok x)
    (hmagic : ∀ x, (g.compress x).take 2 = gzipMagic)
    (hheader : ∀ d, d ≠ [] → d.take 2 ≠ gzipMagic →
      ∃ e, g.decompress d = Except.error e) :
    (∀ x y, compressData g x = Except.ok y → decompressData g y = Except.ok x) ∧
    compressData g [] = Except.ok [] ∧
    decompressData g [] = Except.ok [] ∧
    (∀ d, d ≠ [] → d.take 2 ≠ gzipMagic →
      ∃ e, decompressData g d = Except.error e) := by
  refine ⟨?_, rfl, rfl, ?_⟩
  · intro x y hxy
    by_cases hx : x.length = 0
    · rw [compressData, if_pos hx] at hxy
      injection hxy with hxy
      subst hxy
      rw [decompressData, if_pos hx]
    · rw [compressData, if_neg hx] at hxy
      injection hxy with hxy
      subst hxy
      have hne : (g.compress x).length ≠ 0 := by
        intro h0
        have := hmagic x
        rw [List.length_eq_zero] at h0
        rw [h0] at this
        simp [gzipMagic] at this
      rw [decompressData, if_neg hne]
      exact hround x
  · intro d hd hd2
    have hlen : d.length ≠ 0 := fun h0 => hd (List.length_eq_zero.mp h0)
    rw [decompressData, if_neg hlen]
    exact hheader d hd hd2

/-- A concrete codec satisfying the gzip contract, used to witness C4:
compression prepends the two magic bytes, decompression checks and
strips them. -/
def mockGzip : GzipCodec where
  compress x := 31 :: 139 :: x
  decompress d :=
    if d.take 2 = gzipMagic then Except.ok (d.drop 2)
    else Except.error "gzip: invalid header"

/-- Witness for C4 at the mock codec and concrete inputs. -/
theorem C4_gzip_roundtrip_witness :
    decompressData mockGzip [31, 139, 7, 8] = Except.ok [7, 8] ∧
    compressData mockGzip [] = Except.ok [] ∧
    decompressData mockGzip [] = Except.ok [] ∧
    (∃ e, decompressData mockGzip [5] = Except.error e) := by
  have h := C4_gzip_roundtrip mockGzip
    (fun x => by simp [mockGzip, gzipMagic])
    (fun x => by simp [mockGzip, gzipMagic])
    (fun d hd hd2 => ⟨"gzip: invalid header", by simp [mockGzip, hd2]⟩)
  exact ⟨h.1 [7, 8] [31, 139, 7, 8] rfl, h.2.1, h.2.2.1,
    h.2.2.2 [5] (by decide) (by decide)⟩

/-! ## Claim C10: `GetEmail` when the content row is missing -/

/-- Claim C10: for a key whose metadata row exists but which has no
matching `email_content` row, `GetEmail` succeeds with a non-null
record whose `body`, `headers` and `raw_message` are all empty: the
LEFT JOIN yields NULL content columns, which scan as empty byte
slices, and `decompressData` of empty input is empty rather than an
error. -/
theorem C10_GetEmail_missing_content (g : GzipCodec) (db : StoreDB)
    (mailbox : String) (uid : Nat) (meta : EmailMetaRow)
    (hmeta : findMetaRow db mailbox uid = some meta)
    (hcontent : findContentRow db mailbox uid = none) :
    GetEmail g db mailbox uid = Except.ok (some
      { uid := meta.uid, mailbox := meta.mailbox, subject := meta.subject,
        fromAddr := meta.fromAddr, toAddrs := meta.toAddrs, date := meta.date,
        size := meta.size, flags := meta.flags,
        body := [], headers := [], rawMessage := [],
        synced := meta.synced }) := by
  unfold GetEmail
  rw [hmeta, hcontent]
  rfl

/-- Witness for C10: a one-row store with no content row. -/
theorem C10_GetEmail_missing_content_witness :
    findMetaRow ⟨[⟨"INBOX", 1, "s", "f", ["t"], 3, 4, ["\\Seen"], 5⟩], []⟩ "INBOX" 1 =
      some ⟨"INBOX", 1, "s", "f", ["t"], 3, 4, ["\\Seen"], 5⟩ ∧
    findContentRow ⟨[⟨"INBOX", 1, "s", "f", ["t"], 3, 4, ["\\Seen"], 5⟩], []⟩ "INBOX" 1 = none ∧
    GetEmail mockGzip ⟨[⟨"INBOX", 1, "s", "f", ["t"], 3, 4, ["\\Seen"], 5⟩], []⟩ "INBOX" 1 =
      Except.ok (some
        { uid := 1, mailbox := "INBOX", subject := "s", fromAddr := "f",
          toAddrs := ["t"], date := 3, size := 4, flags := ["\\Seen"],
          body := [], headers := [], rawMessage := [], synced := 5 }) :=
  ⟨by decide, by decide,
    C10_GetEmail_missing_content mockGzip
      ⟨[⟨"INBOX", 1, "s", "f", ["t"], 3, 4, ["\\Seen"], 5⟩], []⟩ "INBOX" 1
      ⟨"INBOX", 1, "s", "f", ["t"], 3, 4, ["\\Seen"], 5⟩ (by decide) (by decide)⟩

/-! ## The two non-shortcut paths of `SyncMailbox`, as shared lemmas -/

lemma syncMailbox_empty_delta (mailbox : String) (sel : SelectData)
    (state0 : Option MailboxState) (uids : List Nat) (now : Nat)
    (hnm : sel.numMessages ≠ 0) (huids : uids ≠ [])
    (hempty : filterUIDs uids (resolveStartUID (resolveState state0 sel.uidValidity)) = []) :
    SyncMailbox mailbox sel state0 uids now = ⟨⟨uids.length, 0⟩, []⟩ := by
  unfold SyncMailbox
  rw [if_neg hnm, if_neg (by simpa [List.isEmpty_iff] using huids)]
  rw [hempty]
  rfl

lemma syncMailbox_nonempty_delta (mailbox : String) (sel : SelectData)
    (state0 : Option MailboxState) (uids : List Nat) (now : Nat)
    (toSync : List Nat)
    (htoSync : toSync =
      filterUIDs uids (resolveStartUID (resolveState state0 sel.uidValidity)))
    (hnm : sel.numMessages ≠ 0) (huids : uids ≠ []) (hne : toSync ≠ []) :
    SyncMailbox mailbox sel state0 uids now =
      ⟨⟨uids.length, toSync.length⟩,
        (chunksOf5 toSync).flatMap (fun c => [Event.fetchBatch c, Event.saveBatch c]) ++
        [Event.saveState ⟨mailbox, sel.uidValidity, toSync.getLastD 0, now⟩]⟩ := by
  unfold SyncMailbox
  rw [if_neg hnm, if_neg (by simpa [List.isEmpty_iff] using huids)]
  rw [← htoSync]
  rw [if_neg (by simpa [List.isEmpty_iff] using hne)]
  rfl

lemma resolveStartUID_no_wrap (st : MailboxState) (selUV : Nat)
    (hval : st.uidValidity = selUV) (hnowrap : st.lastUID + 1 < 4294967296) :
    resolveStartUID (resolveState (some st) selUV) = st.lastUID + 1 := by
  simp [resolveState, resolveStartUID, hval, Nat.mod_eq_of_lt hnowrap]

/-! ## Claim C3: start-UID resolution and the empty-delta shortcut -/

/-- Claim C3: the start UID is the stored `last_uid + 1` (as `uint32`
arithmetic, hence modulo `2^32`; the plain `+ 1` whenever it does not
wrap) when a stored state exists with the SELECT's `uid_validity`, and
`1` otherwise; the delta is exactly the order-preserving filter of the
UID SEARCH result to UIDs `≥ startUid`; and with a non-empty mailbox
and non-empty search result an empty delta returns
`{len(uids), 0}` with no store writes at all. -/
theorem C3_startUID_and_delta :
    (∀ (st : MailboxState) (selUV : Nat), st.uidValidity = selUV →
      resolveStartUID (resolveState (some st) selUV) = (st.lastUID + 1) % 4294967296) ∧
    (∀ (st : MailboxState) (selUV : Nat), st.uidValidity = selUV →
      st.lastUID + 1 < 4294967296 →
      resolveStartUID (resolveState (some st) selUV) = st.lastUID + 1) ∧
    (∀ selUV : Nat, resolveStartUID (resolveState none selUV) = 1) ∧
    (∀ (st : MailboxState) (selUV : Nat), st.uidValidity ≠ selUV →
      resolveStartUID (resolveState (some st) selUV) = 1) ∧
    (∀ (uids : List Nat) (s : Nat),
      filterUIDs uids s = uids.filter (fun u => s ≤ u)) ∧
    (∀ (mailbox : String) (sel : SelectData) (state0 : Option MailboxState)
       (uids : List Nat) (now : Nat),
      sel.numMessages ≠ 0 → uids ≠ [] →
      filterUIDs uids (resolveStartUID (resolveState state0 sel.uidValidity)) = [] →
      SyncMailbox mailbox sel state0 uids now = ⟨⟨uids.length, 0⟩, []⟩) := by
  refine ⟨?_, resolveStartUID_no_wrap, ?_, ?_, filterUIDs_eq_filter,
    syncMailbox_empty_delta⟩
  · intro st selUV h
    simp [resolveState, resolveStartUID, h]
  · intro selUV
    rfl
  · intro st selUV h
    simp [resolveState, resolveStartUID, h]

/-- Witness for C3: start UID from a stored watermark 5 under matching
`uid_validity` 7, and the empty-delta shortcut on a concrete run. -/
theorem C3_startUID_and_delta_witness :
    resolveStartUID (resolveState (some ⟨"INBOX", 7, 5, 0⟩) 7) = 6 ∧
    SyncMailbox "INBOX" ⟨7, 3⟩ (some ⟨"INBOX", 7, 10, 0⟩) [1, 2, 3] 1 =
      ⟨⟨3, 0⟩, []⟩ :=
  ⟨C3_startUID_and_delta.2.1 ⟨"INBOX", 7, 5, 0⟩ 7 rfl (by decide),
   C3_startUID_and_delta.2.2.2.2.2 "INBOX" ⟨7, 3⟩ (some ⟨"INBOX", 7, 10, 0⟩)
     [1, 2, 3] 1 (by decide) (by decide) (by decide)⟩

/-! ## Claim C2: batching and the final state write -/

/-- Claim C2: when the delta is non-empty and everything succeeds, the
delta is processed as consecutive chunks in order — every non-last
chunk has exactly 5 UIDs and the last is non-empty with at most 5 —
each chunk being fetched then saved; the single mailbox-state write
comes after all chunks, with `uid_validity` from the SELECT and
`last_uid` the last element of the delta; the returned stats are the
server search size and the delta length. -/
theorem C2_batching (mailbox : String) (sel : SelectData)
    (state0 : Option MailboxState) (uids : List Nat) (now : Nat)
    (toSync : List Nat)
    (htoSync : toSync =
      filterUIDs uids (resolveStartUID (resolveState state0 sel.uidValidity)))
    (hnm : sel.numMessages ≠ 0) (huids : uids ≠ []) (hne : toSync ≠ []) :
    (chunksOf5 toSync).flatten = toSync ∧
    (∀ c ∈ (chunksOf5 toSync).dropLast, c.length = 5) ∧
    (∀ c ∈ chunksOf5 toSync, c ≠ [] ∧ c.length ≤ 5) ∧
    (SyncMailbox mailbox sel state0 uids now).trace =
      (chunksOf5 toSync).flatMap (fun c => [Event.fetchBatch c, Event.saveBatch c]) ++
      [Event.saveState ⟨mailbox, sel.uidValidity, toSync.getLastD 0, now⟩] ∧
    savedState (SyncMailbox mailbox sel state0 uids now).trace =
      some ⟨mailbox, sel.uidValidity, toSync.getLastD 0, now⟩ ∧
    (SyncMailbox mailbox sel state0 uids now).stats = ⟨uids.length, toSync.length⟩ := by
  have htrace := syncMailbox_nonempty_delta mailbox sel state0 uids now toSync
    htoSync hnm huids hne
  refine ⟨chunksOf5_flatten toSync, chunksOf5_dropLast toSync, chunksOf5_mem toSync,
    ?_, ?_, ?_⟩
  · rw [htrace]
  · rw [htrace]
    exact savedState_append_saveState _ _
  · rw [htrace]

/-- Witness for C2: seven new UIDs are processed as a 5-chunk and a
2-chunk, then the state write with `last_uid = 7`. -/
theorem C2_batching_witness :
    (SyncMailbox "INBOX" ⟨7, 9⟩ (some ⟨"INBOX", 7, 0, 0⟩) [1, 2, 3, 4, 5, 6, 7] 1).trace =
      (chunksOf5 [1, 2, 3, 4, 5, 6, 7]).flatMap
        (fun c => [Event.fetchBatch c, Event.saveBatch c]) ++
      [Event.saveState ⟨"INBOX", 7, 7, 1⟩] ∧
    (SyncMailbox "INBOX" ⟨7, 9⟩ (some ⟨"INBOX", 7, 0, 0⟩) [1, 2, 3, 4, 5, 6, 7] 1).stats =
      ⟨7, 7⟩ := by
  have h := C2_batching "INBOX" ⟨7, 9⟩ (some ⟨"INBOX", 7, 0, 0⟩) [1, 2, 3, 4, 5, 6, 7] 1
    [1, 2, 3, 4, 5, 6, 7] (by decide) (by decide) (by decide) (by decide)
  exact ⟨h.2.2.2.1, h.2.2.2.2.2⟩

/-! ## Claim C1: watermark monotonicity (corrected) -/

/-- Counterexample to claim C1 as stated: a successful `SyncMailbox`
run on a mailbox the server now reports empty (`NumMessages = 0`),
under unchanged `uid_validity` 7, overwrites a stored `last_uid` of 5
with 0 — the watermark decreases. -/
theorem C1_watermark_counterexample :
    (MailboxState.mk "INBOX" 7 5 0).uidValidity = (SelectData.mk 7 0).uidValidity ∧
    savedState (SyncMailbox "INBOX" ⟨7, 0⟩ (some ⟨"INBOX", 7, 5, 0⟩) [] 1).trace =
      some ⟨"INBOX", 7, 0, 1⟩ ∧
    ¬((MailboxState.mk "INBOX" 7 5 0).lastUID ≤
      (MailboxState.mk "INBOX" 7 0 1).lastUID) :=
  ⟨rfl, by decide, by decide⟩

/-- Claim C1 as amended: across successful `SyncMailbox` calls with
stable `uid_validity`, `last_uid` is non-decreasing provided each call
observes a non-empty mailbox (`NumMessages > 0` and a non-empty UID
SEARCH result) and the stored watermark does not wrap `uint32`; a
successful sync of a mailbox the server reports as empty instead
resets `last_uid` to 0. -/
theorem C1_watermark_monotonic_amended (mailbox : String) (sel : SelectData)
    (st : MailboxState) (uids : List Nat) (now : Nat) (st' : MailboxState)
    (hval : st.uidValidity = sel.uidValidity)
    (hnm : sel.numMessages ≠ 0)
    (huids : uids ≠ [])
    (hnowrap : st.lastUID + 1 < 4294967296)
    (hsaved : savedState (SyncMailbox mailbox sel (some st) uids now).trace = some st') :
    st.lastUID ≤ st'.lastUID := by
  have hstart := resolveStartUID_no_wrap st sel.uidValidity hval hnowrap
  by_cases hempty :
      filterUIDs uids (resolveStartUID (resolveState (some st) sel.uidValidity)) = []
  · exfalso
    have := syncMailbox_empty_delta mailbox sel (some st) uids now hnm huids hempty
    rw [this] at hsaved
    simp [savedState] at hsaved
  · have htrace := syncMailbox_nonempty_delta mailbox sel (some st) uids now _
      rfl hnm huids hempty
    rw [htrace] at hsaved
    rw [savedState_append_saveState] at hsaved
    injection hsaved with hsaved
    subst hsaved
    have hmem : (filterUIDs uids
        (resolveStartUID (resolveState (some st) sel.uidValidity))).getLastD 0 ∈
        filterUIDs uids (resolveStartUID (resolveState (some st) sel.uidValidity)) :=
      getLastD_mem _ hempty
    have hge := mem_filterUIDs hmem
    rw [hstart] at hge ⊢
    exact Nat.le_of_succ_le hge

/-- Witness for the amended C1: watermark 2 advances to 3 on a
concrete non-empty run with stable `uid_validity`. -/
theorem C1_watermark_monotonic_amended_witness :
    savedState (SyncMailbox "INBOX" ⟨7, 3⟩ (some ⟨"INBOX", 7, 2, 0⟩) [1, 2, 3] 1).trace =
      some ⟨"INBOX", 7, 3, 1⟩ ∧
    (MailboxState.mk "INBOX" 7 2 0).lastUID ≤ (MailboxState.mk "INBOX" 7 3 1).lastUID := by
  have htrace := syncMailbox_nonempty_delta "INBOX" ⟨7, 3⟩ (some ⟨"INBOX", 7, 2, 0⟩)
    [1, 2, 3] 1 [3] (by decide) (by decide) (by decide) (by decide)
  have hsaved : savedState
      (SyncMailbox "INBOX" ⟨7, 3⟩ (some ⟨"INBOX", 7, 2, 0⟩) [1, 2, 3] 1).trace =
      some ⟨"INBOX", 7, 3, 1⟩ := by
    rw [htrace]
    exact savedState_append_saveState _ _
  exact ⟨hsaved,
    C1_watermark_monotonic_amended "INBOX" ⟨7, 3⟩ ⟨"INBOX", 7, 2, 0⟩ [1, 2, 3] 1
      ⟨"INBOX", 7, 3, 1⟩ rfl (by decide) (by decide) (by decide) hsaved⟩

end Imapsync
